import Mathlib

/-!
Shallow embedding of the scraping/extraction core of `catholic-liturgy-tools`
(`src/catholic_liturgy_tools/utils/retry.py`, `scraper/usccb.py`,
`scraper/models.py`, `scraper/exceptions.py`), together with theorems that
settle the specification claims about it.

Conventions of the embedding:
* Python `int` becomes `ℤ`, Python `float` (only the backoff factor and the
  sleep delays) becomes `ℚ` with exact arithmetic.
* A fallible Python call becomes `Except`.
* Side effects that the claims talk about (number of invocations of the
  wrapped operation, the sequence of `time.sleep` delays) are returned
  explicitly in a trace structure.
-/

/-! ## `utils/retry.py`: `retry_with_backoff` -/

/-- Outcome of a call to a function wrapped by `retry_with_backoff`:
either the wrapped function's return value, or a re-raised exception
(`raise last_exception` with `last_exception = e`), or the `TypeError`
Python produces for `raise None` (when `last_exception` was never set). -/
inductive RetryOutcome (E V : Type) where
  | success : V → RetryOutcome E V
  | raised : E → RetryOutcome E V
  | typeErrorNone : RetryOutcome E V
  deriving DecidableEq

/-- Observable trace of one call of the wrapper: the outcome, how many times
the wrapped operation was invoked, and the `time.sleep` delays performed,
in order. -/
structure RetryTrace (E V : Type) where
  result : RetryOutcome E V
  invocations : ℕ
  sleeps : List ℚ
  deriving DecidableEq

/-- Python `range(lo, hi)` as a list of integers. -/
def pyRange (lo hi : ℤ) : List ℤ :=
  (List.range (hi - lo).toNat).map (fun (i : ℕ) => lo + (i : ℤ))

/-- After the `for` loop of `retry_with_backoff` ends without returning, the
wrapper executes `raise last_exception`: re-raise the stored exception, or a
`TypeError` when `last_exception` is still `None`. -/
def finalRaise {E V : Type} (last : Option E) : RetryOutcome E V :=
  match last with
  | some e => RetryOutcome.raised e
  | none => RetryOutcome.typeErrorNone

/-- The `for attempt in range(1, max_attempts + 1)` loop of the wrapper in
`retry_with_backoff` (retry.py lines 53-85), over the remaining attempt
numbers.  Each iteration invokes `op attempt`; on success the wrapper
returns; on a retryable exception it stores it in `last_exception` and, when
`attempt < max_attempts`, sleeps `backoff_factor ** (attempt - 1)` before the
next iteration.  The operation `op` is indexed by the attempt number. -/
def retryLoop {E V : Type} (op : ℤ → Except E V) (b : ℚ) (maxAttempts : ℤ) :
    List ℤ → Option E → RetryTrace E V
  | [], last => ⟨finalRaise last, 0, []⟩
  | a :: rest, last =>
    match op a with
    | Except.ok v => ⟨RetryOutcome.success v, 1, []⟩
    | Except.error e =>
      let r := retryLoop op b maxAttempts rest (some e)
      if a < maxAttempts then
        ⟨r.result, r.invocations + 1, b ^ (a - 1) :: r.sleeps⟩
      else
        ⟨r.result, r.invocations + 1, r.sleeps⟩

/-- The wrapper produced by `retry_with_backoff(max_attempts, backoff_factor)`
applied to an operation, as a function from the operation's per-attempt
behaviour to the observable trace (retry.py lines 16-88). -/
def retry_with_backoff {E V : Type} (maxAttempts : ℤ) (b : ℚ)
    (op : ℤ → Except E V) : RetryTrace E V :=
  retryLoop op b maxAttempts (pyRange 1 (maxAttempts + 1)) none

/-- The value `last_exception` holds after iterating the loop over attempt
list `l` when every attempt raises (`exc a` at attempt `a`), starting from
stored value `last`. -/
def lastErr {E : Type} (exc : ℤ → E) : List ℤ → Option E → Option E
  | [], last => last
  | a :: rest, _ => lastErr exc rest (some (exc a))

theorem lastErr_append_singleton {E : Type} (exc : ℤ → E) :
    ∀ (l : List ℤ) (a : ℤ) (last : Option E),
      lastErr exc (l ++ [a]) last = some (exc a) := by
  intro l
  induction l with
  | nil => intro a last; rfl
  | cons x xs ih => intro a last; simpa [lastErr] using ih a (some (exc x))

theorem retryLoop_allFail {E V : Type} (op : ℤ → Except E V) (b : ℚ)
    (M : ℤ) (exc : ℤ → E) :
    ∀ (l : List ℤ) (last : Option E), (∀ a ∈ l, op a = Except.error (exc a)) →
      retryLoop op b M l last =
        ⟨finalRaise (lastErr exc l last), l.length,
         (l.filter (fun a => decide (a < M))).map (fun a => b ^ (a - 1))⟩ := by
  intro l
  induction l with
  | nil => intro last _; rfl
  | cons a rest ih =>
    intro last h
    have ha : op a = Except.error (exc a) := h a (List.mem_cons_self a rest)
    have hrest : ∀ x ∈ rest, op x = Except.error (exc x) := by
      intro x hx; exact h x (List.mem_cons_of_mem a hx)
    simp only [retryLoop, ha, ih (some (exc a)) hrest, List.filter_cons]
    by_cases hM : a < M
    · simp [hM, lastErr]
    · simp [hM, lastErr]

theorem retryLoop_failThenSucc {E V : Type} (op : ℤ → Except E V) (b : ℚ)
    (M : ℤ) (exc : ℤ → E) (v : V) :
    ∀ (l1 : List ℤ) (a0 : ℤ) (l2 : List ℤ) (last : Option E),
      (∀ a ∈ l1, op a = Except.error (exc a)) → op a0 = Except.ok v →
      (∀ a ∈ l1, a < M) →
      retryLoop op b M (l1 ++ a0 :: l2) last =
        ⟨RetryOutcome.success v, l1.length + 1,
         l1.map (fun a => b ^ (a - 1))⟩ := by
  intro l1
  induction l1 with
  | nil =>
    intro a0 l2 last _ hs _
    simp [retryLoop, hs]
  | cons a rest ih =>
    intro a0 l2 last h hs hM
    have ha : op a = Except.error (exc a) := h a (List.mem_cons_self a rest)
    have hrest : ∀ x ∈ rest, op x = Except.error (exc x) := by
      intro x hx; exact h x (List.mem_cons_of_mem a hx)
    have hMrest : ∀ x ∈ rest, x < M := by
      intro x hx; exact hM x (List.mem_cons_of_mem a hx)
    have haM : a < M := hM a (List.mem_cons_self a rest)
    simp [retryLoop, ha, ih a0 l2 (some (exc a)) hrest hs hMrest, haM]

theorem pyRange_eq_nil {lo hi : ℤ} (h : hi ≤ lo) : pyRange lo hi = [] := by
  unfold pyRange
  have : (hi - lo).toNat = 0 := by omega
  simp [this]

theorem pyRange_succ_right {lo hi : ℤ} (h : lo ≤ hi) :
    pyRange lo (hi + 1) = pyRange lo hi ++ [hi] := by
  unfold pyRange
  have h1 : (hi + 1 - lo).toNat = (hi - lo).toNat + 1 := by omega
  have h2 : lo + ((hi - lo).toNat : ℤ) = hi := by omega
  rw [h1, List.range_succ, List.map_append]
  congr 1
  simp only [List.map_cons, List.map_nil]
  congr 2

theorem pyRange_cons (lo hi : ℤ) (h : lo < hi) :
    pyRange lo hi = lo :: pyRange (lo + 1) hi := by
  unfold pyRange
  have h1 : (hi - lo).toNat = (hi - (lo + 1)).toNat + 1 := by omega
  rw [h1, List.range_succ_eq_map]
  simp only [List.map_cons, List.map_map, Nat.cast_zero, add_zero]
  congr 1
  apply List.map_congr_left
  intro i _
  simp only [Function.comp_apply, Nat.succ_eq_add_one]
  omega

theorem mem_pyRange {a lo hi : ℤ} (h : a ∈ pyRange lo hi) : lo ≤ a ∧ a < hi := by
  unfold pyRange at h
  rcases List.mem_map.mp h with ⟨i, hi1, hi2⟩
  have := List.mem_range.mp hi1
  omega

theorem pyRange_length (lo hi : ℤ) : (pyRange lo hi).length = (hi - lo).toNat := by
  simp [pyRange]

theorem pyRange_split (lo mid hi : ℤ) (h1 : lo ≤ mid) (h2 : mid ≤ hi) :
    pyRange lo hi = pyRange lo mid ++ pyRange mid hi := by
  unfold pyRange
  have hn : (hi - lo).toNat = (mid - lo).toNat + (hi - mid).toNat := by omega
  rw [hn, List.range_add, List.map_append, List.map_map]
  congr 1
  apply List.map_congr_left
  intro i _
  simp
  omega

theorem pyRange_one_map_pow (b : ℚ) (k : ℕ) :
    (pyRange 1 ((k : ℤ) + 1)).map (fun a => b ^ (a - 1)) =
    (List.range k).map (fun i => b ^ i) := by
  unfold pyRange
  have h1 : ((k : ℤ) + 1 - 1).toNat = k := by omega
  rw [h1, List.map_map]
  apply List.map_congr_left
  intro i _
  simp only [Function.comp_apply]
  have h2 : (1 : ℤ) + (i : ℤ) - 1 = (i : ℤ) := by ring
  rw [h2, zpow_natCast]

/-- C1: an operation wrapped by `retry_with_backoff(max_attempts, backoff_factor)`
that raises a retryable exception on exactly `k < max_attempts` invocations and
then succeeds makes the wrapped call return the success value, after `k + 1`
invocations, with sleep delays exactly
`[backoff_factor^0, backoff_factor^1, ..., backoff_factor^(k-1)]`; an operation
that raises on every invocation makes the wrapped call invoke the operation
exactly `max_attempts` times, sleep only `max_attempts - 1` times
(no sleep after the final invocation), and re-raise the exception of the final
invocation unmodified. -/
theorem retry_with_backoff_contract {E V : Type} (M : ℤ) (b : ℚ)
    (op : ℤ → Except E V) (exc : ℤ → E) :
    (∀ (v : V) (k : ℕ), (k : ℤ) < M →
      (∀ a : ℤ, 1 ≤ a → a ≤ (k : ℤ) → op a = Except.error (exc a)) →
      op ((k : ℤ) + 1) = Except.ok v →
      retry_with_backoff M b op =
        ⟨RetryOutcome.success v, k + 1, (List.range k).map (fun i => b ^ i)⟩) ∧
    (1 ≤ M → (∀ a : ℤ, 1 ≤ a → a ≤ M → op a = Except.error (exc a)) →
      retry_with_backoff M b op =
        ⟨RetryOutcome.raised (exc M), M.toNat,
         (List.range (M.toNat - 1)).map (fun i => b ^ i)⟩) := by
  constructor
  · intro v k hk hfail hsucc
    have hsplit : pyRange 1 (M + 1) =
        pyRange 1 ((k : ℤ) + 1) ++ (((k : ℤ) + 1) :: pyRange ((k : ℤ) + 1 + 1) (M + 1)) := by
      rw [pyRange_split 1 ((k : ℤ) + 1) (M + 1) (by omega) (by omega),
        pyRange_cons ((k : ℤ) + 1) (M + 1) (by omega)]
    have hfail' : ∀ a ∈ pyRange 1 ((k : ℤ) + 1), op a = Except.error (exc a) := by
      intro a ha
      have hb := mem_pyRange ha
      exact hfail a hb.1 (by omega)
    have hlt' : ∀ a ∈ pyRange 1 ((k : ℤ) + 1), a < M := by
      intro a ha
      have hb := mem_pyRange ha
      omega
    have hlen : (pyRange 1 ((k : ℤ) + 1)).length = k := by
      rw [pyRange_length]; omega
    unfold retry_with_backoff
    rw [hsplit, retryLoop_failThenSucc op b M exc v _ _ _ none hfail' hsucc hlt',
      hlen, pyRange_one_map_pow]
  · intro hM hfail
    have hfail' : ∀ a ∈ pyRange 1 (M + 1), op a = Except.error (exc a) := by
      intro a ha
      have hb := mem_pyRange ha
      exact hfail a hb.1 (by omega)
    have hsr : pyRange 1 (M + 1) = pyRange 1 M ++ [M] := pyRange_succ_right (by omega)
    unfold retry_with_backoff
    rw [retryLoop_allFail op b M exc _ none hfail', hsr, lastErr_append_singleton]
    have hfil : (pyRange 1 M ++ [M]).filter (fun a => decide (a < M)) = pyRange 1 M := by
      rw [List.filter_append]
      have hf1 : (pyRange 1 M).filter (fun a => decide (a < M)) = pyRange 1 M :=
        List.filter_eq_self.mpr (fun a ha => by simp [(mem_pyRange ha).2])
      have hf2 : ([M] : List ℤ).filter (fun a => decide (a < M)) = [] := by simp
      rw [hf1, hf2, List.append_nil]
    have hM2 : pyRange 1 M = pyRange 1 (((M.toNat - 1 : ℕ) : ℤ) + 1) := by congr 1; omega
    simp only [RetryTrace.mk.injEq]
    refine ⟨rfl, ?_, ?_⟩
    · simp only [List.length_append, pyRange_length, List.length_cons, List.length_nil]
      omega
    · rw [hfil, hM2, pyRange_one_map_pow]

theorem retry_with_backoff_contract_witness :
    (1 : ℤ) < 3 ∧
    retry_with_backoff 3 2
      (fun a => if a < 2 then Except.error (0 : ℕ) else Except.ok (7 : ℕ)) =
      ⟨RetryOutcome.success 7, 1 + 1, (List.range 1).map (fun i => (2 : ℚ) ^ i)⟩ ∧
    retry_with_backoff 2 2 (fun _ => (Except.error 5 : Except ℕ ℕ)) =
      ⟨RetryOutcome.raised 5, (2 : ℤ).toNat,
       (List.range ((2 : ℤ).toNat - 1)).map (fun i => (2 : ℚ) ^ i)⟩ := by
  refine ⟨by decide, ?_, ?_⟩
  · exact (retry_with_backoff_contract 3 2 _ (fun _ => 0)).1 7 1 (by decide)
      (by intro a h1 h2; simp [show a < 2 by omega])
      (by norm_num)
  · exact (retry_with_backoff_contract 2 2 _ (fun _ => 5)).2 (by decide)
      (by intro a _ _; rfl)

/-- C10: with `max_attempts < 1` the `for` loop of the wrapper never runs, the
wrapped operation is never invoked, no sleep is performed, and the wrapper
executes `raise last_exception` with `last_exception` still `None`, so the
call raises a `TypeError` rather than returning or re-raising an operation
exception. -/
theorem retry_with_backoff_nonpositive_attempts {E V : Type} (M : ℤ) (hM : M < 1)
    (b : ℚ) (op : ℤ → Except E V) :
    retry_with_backoff M b op = ⟨RetryOutcome.typeErrorNone, 0, []⟩ := by
  unfold retry_with_backoff
  rw [pyRange_eq_nil (by omega)]
  rfl

theorem retry_with_backoff_nonpositive_attempts_witness :
    (0 : ℤ) < 1 ∧
    retry_with_backoff 0 2 (fun _ => (Except.ok 1 : Except ℕ ℕ)) =
      ⟨RetryOutcome.typeErrorNone, 0, []⟩ :=
  ⟨by decide, retry_with_backoff_nonpositive_attempts 0 (by decide) 2 _⟩

/-! ## `scraper/usccb.py`: `USCCBReadingsScraper._build_url` -/

/-- A Python `datetime.date` value: a valid calendar date. -/
structure PyDate where
  year : ℕ
  month : ℕ
  day : ℕ
  deriving DecidableEq

/-- Zero-padded two-digit rendering of a field value, as `strftime` produces
for the `%m`, `%d` and (after reduction mod 100) `%y` directives when the
value is below 100. -/
def pad2 (n : ℕ) : String :=
  String.mk [Nat.digitChar (n / 10 % 10), Nat.digitChar (n % 10)]

/-- `target_date.strftime("%m%d%y")` (usccb.py line 81): two-digit month,
two-digit day, two-digit year (year modulo 100). -/
def strftime_mmddyy (d : PyDate) : String :=
  pad2 d.month ++ pad2 d.day ++ pad2 (d.year % 100)

/-- `USCCBReadingsScraper._build_url` (usccb.py lines 64-82):
`f"{self.base_url}/{date_str}.cfm"` with `date_str` in `MMDDYY` format. -/
def build_url (base_url : String) (d : PyDate) : String :=
  base_url ++ "/" ++ strftime_mmddyy d ++ ".cfm"

theorem str_append_assoc (a b c : String) : a ++ b ++ c = a ++ (b ++ c) := by
  apply String.ext
  simp [String.data_append, List.append_assoc]

theorem digitChar_isDigit : ∀ k, k < 10 → (Nat.digitChar k).isDigit = true := by decide

/-- Numeric value of a decimal digit character. -/
def digitVal (c : Char) : ℕ := c.toNat - 48

theorem digitVal_digitChar : ∀ k, k < 10 → digitVal (Nat.digitChar k) = k := by decide

/-- Decoder for the six-character `MMDDYY` stem: succeeds only on exactly six
decimal digits and returns the encoded (month, day, two-digit year). Used to
state that `_build_url`'s date stem is a faithful six-digit encoding. -/
def parse_mmddyy (s : String) : Option (ℕ × ℕ × ℕ) :=
  match s.toList with
  | [c1, c2, c3, c4, c5, c6] =>
    if c1.isDigit && c2.isDigit && c3.isDigit && c4.isDigit && c5.isDigit && c6.isDigit then
      some (digitVal c1 * 10 + digitVal c2, digitVal c3 * 10 + digitVal c4,
            digitVal c5 * 10 + digitVal c6)
    else none
  | _ => none

theorem strftime_mmddyy_toList (d : PyDate) :
    (strftime_mmddyy d).toList =
      [Nat.digitChar (d.month / 10 % 10), Nat.digitChar (d.month % 10),
       Nat.digitChar (d.day / 10 % 10), Nat.digitChar (d.day % 10),
       Nat.digitChar (d.year % 100 / 10 % 10), Nat.digitChar (d.year % 100 % 10)] := by
  simp [strftime_mmddyy, pad2, String.toList, String.data_append]

/-- C7: the URL builder is a pure, deterministic function of the date; for
every calendar date it returns the base URL, `"/"`, a six-character all-digit
stem that encodes exactly (month, day, year mod 100) as `MMDDYY`, and the
fixed `".cfm"` extension; date 2025-11-22 maps to `<base>/112225.cfm` and
leap day 2024-02-29 maps to `<base>/022924.cfm`. -/
theorem build_url_spec (base : String) (d : PyDate)
    (hm : 1 ≤ d.month ∧ d.month ≤ 12) (hd : 1 ≤ d.day ∧ d.day ≤ 31) :
    build_url base d = build_url base d ∧
    build_url base d = base ++ ("/" ++ (strftime_mmddyy d ++ ".cfm")) ∧
    (strftime_mmddyy d).length = 6 ∧
    (∀ c ∈ (strftime_mmddyy d).toList, c.isDigit = true) ∧
    parse_mmddyy (strftime_mmddyy d) = some (d.month, d.day, d.year % 100) ∧
    build_url base ⟨2025, 11, 22⟩ = base ++ "/112225.cfm" ∧
    build_url base ⟨2024, 2, 29⟩ = base ++ "/022924.cfm" := by
  have hm10 : d.month / 10 % 10 < 10 := Nat.mod_lt _ (by norm_num)
  have hm1 : d.month % 10 < 10 := Nat.mod_lt _ (by norm_num)
  have hd10 : d.day / 10 % 10 < 10 := Nat.mod_lt _ (by norm_num)
  have hd1 : d.day % 10 < 10 := Nat.mod_lt _ (by norm_num)
  have hy10 : d.year % 100 / 10 % 10 < 10 := Nat.mod_lt _ (by norm_num)
  have hy1 : d.year % 100 % 10 < 10 := Nat.mod_lt _ (by norm_num)
  refine ⟨rfl, ?_, ?_, ?_, ?_, ?_, ?_⟩
  · unfold build_url
    rw [str_append_assoc, str_append_assoc]
  · have := strftime_mmddyy_toList d
    have hlen : (strftime_mmddyy d).length = (strftime_mmddyy d).toList.length := rfl
    rw [hlen, this]
    rfl
  · rw [strftime_mmddyy_toList]
    intro c hc
    simp only [List.mem_cons, List.not_mem_nil, or_false] at hc
    rcases hc with rfl | rfl | rfl | rfl | rfl | rfl
    · exact digitChar_isDigit _ hm10
    · exact digitChar_isDigit _ hm1
    · exact digitChar_isDigit _ hd10
    · exact digitChar_isDigit _ hd1
    · exact digitChar_isDigit _ hy10
    · exact digitChar_isDigit _ hy1
  · unfold parse_mmddyy
    rw [strftime_mmddyy_toList]
    simp only [digitChar_isDigit _ hm10, digitChar_isDigit _ hm1,
      digitChar_isDigit _ hd10, digitChar_isDigit _ hd1,
      digitChar_isDigit _ hy10, digitChar_isDigit _ hy1,
      Bool.and_self, if_true,
      digitVal_digitChar _ hm10, digitVal_digitChar _ hm1,
      digitVal_digitChar _ hd10, digitVal_digitChar _ hd1,
      digitVal_digitChar _ hy10, digitVal_digitChar _ hy1]
    have e1 : d.month / 10 % 10 * 10 + d.month % 10 = d.month := by omega
    have e2 : d.day / 10 % 10 * 10 + d.day % 10 = d.day := by omega
    have e3 : d.year % 100 / 10 % 10 * 10 + d.year % 100 % 10 = d.year % 100 := by omega
    rw [e1, e2, e3]
  · unfold build_url
    rw [str_append_assoc, str_append_assoc]
    congr 1
  · unfold build_url
    rw [str_append_assoc, str_append_assoc]
    congr 1

theorem build_url_spec_witness :
    (1 ≤ 11 ∧ 11 ≤ 12) ∧ (1 ≤ 22 ∧ 22 ≤ 31) ∧
    parse_mmddyy (strftime_mmddyy ⟨2025, 11, 22⟩) = some (11, 22, 25) ∧
    build_url "https://bible.usccb.org/bible/readings" ⟨2025, 11, 22⟩ =
      "https://bible.usccb.org/bible/readings/112225.cfm" := by
  have h := build_url_spec "https://bible.usccb.org/bible/readings" ⟨2025, 11, 22⟩
    ⟨by norm_num, by norm_num⟩ ⟨by norm_num, by norm_num⟩
  refine ⟨⟨by norm_num, by norm_num⟩, ⟨by norm_num, by norm_num⟩, ?_, ?_⟩
  · rw [h.2.2.2.2.1]
    rfl
  · rw [h.2.2.2.2.2.1]
    decide

/-! ## `scraper/exceptions.py` and `scraper/models.py` -/

/-- Python `str.strip()`: remove leading and trailing whitespace.  Implemented
over the character list so that it evaluates by kernel reduction; ASCII
whitespace only, which covers every string the claims touch. -/
def pyStrip (s : String) : String :=
  ⟨((s.data.dropWhile Char.isWhitespace).reverse.dropWhile Char.isWhitespace).reverse⟩

/-- Python `str.lower()`, implemented over the character list (ASCII case
mapping, which covers every cased character the claims touch). -/
def strLower (s : String) : String :=
  ⟨s.data.map Char.toLower⟩

/-- `ParseError` (exceptions.py lines 50-66): message and the `element`
attribute naming the HTML element whose extraction failed. -/
structure ParseError where
  message : String
  element : String
  deriving DecidableEq

/-- `ValidationError` (exceptions.py lines 69-87): message and the `field`
attribute naming the field that failed validation.  The `value` attribute
(the offending value, of heterogeneous Python type) is not modelled; no
claim refers to it. -/
structure ValidationError where
  message : String
  field : String
  deriving DecidableEq

/-- `ReadingEntry` (models.py lines 17-66): one reading with title, citation
and the list of text paragraphs. -/
structure ReadingEntry where
  title : String
  citation : String
  text : List String
  deriving DecidableEq

/-- `ReadingEntry.validate` (models.py lines 42-56).  Python truthiness of a
string is emptiness, so `not self.title or not self.title.strip()` becomes
`title = "" or pyStrip title = ""`; `not self.text or not any(p.strip() for p
in self.text)` becomes `text = [] or no element is non-blank after pyStrip`. -/
def ReadingEntry.validate (r : ReadingEntry) : Except ValidationError Unit :=
  if r.title = "" ∨ pyStrip r.title = "" then
    Except.error ⟨"Reading title cannot be empty", "title"⟩
  else if r.citation = "" ∨ pyStrip r.citation = "" then
    Except.error ⟨"Reading citation cannot be empty", "citation"⟩
  else if r.text = [] ∨ ¬ (r.text.any (fun p => pyStrip p ≠ "")) then
    Except.error ⟨"Reading text cannot be empty", "text"⟩
  else Except.ok ()

/-- `DailyReading` (models.py lines 165-247) restricted to the fields its
`validate` method reads; the optional AI augmentation fields (synopses,
reflection, prayer, feast info, cost summary, timestamps) are not consulted
by `validate` and are omitted. -/
structure DailyReading where
  date : PyDate
  date_display : String
  liturgical_day : String
  readings : List ReadingEntry
  source_url : String
  deriving DecidableEq

/-- The `for i, reading in enumerate(self.readings)` loop of
`DailyReading.validate` (models.py lines 236-244), started at index `s`:
the first entry whose own `validate` raises has its error re-raised wrapped
with the message `"Invalid reading at index {i}: {e}"` and the field path
`"readings[{i}].{e.field}"`. -/
def validateReadingsFrom : ℕ → List ReadingEntry → Except ValidationError Unit
  | _, [] => Except.ok ()
  | i, r :: rest =>
    match r.validate with
    | Except.error e =>
      Except.error ⟨"Invalid reading at index " ++ toString i ++ ": " ++ e.message,
                    "readings[" ++ toString i ++ "]." ++ e.field⟩
    | Except.ok _ => validateReadingsFrom (i + 1) rest

/-- `DailyReading.validate` (models.py lines 213-247).  The initial
`isinstance(self.date, date)` check always passes in this typed model
(`date` has type `PyDate`), so it is omitted. -/
def DailyReading.validate (d : DailyReading) : Except ValidationError Unit :=
  if d.date_display = "" ∨ pyStrip d.date_display = "" then
    Except.error ⟨"Date display cannot be empty", "date_display"⟩
  else if d.liturgical_day = "" ∨ pyStrip d.liturgical_day = "" then
    Except.error ⟨"Liturgical day cannot be empty", "liturgical_day"⟩
  else if d.readings = [] then
    Except.error ⟨"Readings list cannot be empty", "readings"⟩
  else if d.readings.length < 1 then
    Except.error ⟨"Must have at least one reading", "readings"⟩
  else
    match validateReadingsFrom 0 d.readings with
    | Except.error e => Except.error e
    | Except.ok _ =>
      if d.source_url = "" ∨ pyStrip d.source_url = "" then
        Except.error ⟨"Source URL cannot be empty", "source_url"⟩
      else Except.ok ()

deriving instance DecidableEq for Except

theorem blank_iff (s : String) : (s = "" ∨ pyStrip s = "") ↔ pyStrip s = "" := by
  constructor
  · rintro (rfl | h)
    · rfl
    · exact h
  · intro h
    exact Or.inr h

theorem text_blank_iff (l : List String) :
    (l = [] ∨ ¬ (l.any (fun p => pyStrip p ≠ ""))) ↔ ∀ p ∈ l, pyStrip p = "" := by
  constructor
  · rintro (rfl | h) p hp
    · cases hp
    · by_contra hne
      exact h (List.any_eq_true.mpr ⟨p, hp, by simpa using hne⟩)
  · intro h
    right
    intro hany
    rcases List.any_eq_true.mp hany with ⟨p, hp, hp2⟩
    simp only [ne_eq, decide_not, Bool.not_eq_true', decide_eq_false_iff_not] at hp2
    exact hp2 (h p hp)

/-- Normal form of `ReadingEntry.validate`: the three checks depend only on
the stripped fields. -/
theorem ReadingEntry.validate_eq (r : ReadingEntry) :
    r.validate =
      if pyStrip r.title = "" then
        Except.error ⟨"Reading title cannot be empty", "title"⟩
      else if pyStrip r.citation = "" then
        Except.error ⟨"Reading citation cannot be empty", "citation"⟩
      else if ∀ p ∈ r.text, pyStrip p = "" then
        Except.error ⟨"Reading text cannot be empty", "text"⟩
      else Except.ok () := by
  unfold ReadingEntry.validate
  simp only [blank_iff, text_blank_iff]

theorem validateReadingsFrom_err :
    ∀ (l : List ReadingEntry) (s i : ℕ) (r : ReadingEntry) (e : ValidationError),
      l.get? i = some r → r.validate = Except.error e →
      (∀ (j : ℕ) (r0 : ReadingEntry), j < i → l.get? j = some r0 →
        r0.validate = Except.ok ()) →
      validateReadingsFrom s l =
        Except.error
          ⟨"Invalid reading at index " ++ toString (s + i) ++ ": " ++ e.message,
           "readings[" ++ toString (s + i) ++ "]." ++ e.field⟩ := by
  intro l
  induction l with
  | nil =>
    intro s i r e hget
    simp at hget
  | cons a rest ih =>
    intro s i r e hget herr hprev
    cases i with
    | zero =>
      simp only [List.get?] at hget
      injection hget with hget
      subst hget
      simp [validateReadingsFrom, herr]
    | succ i0 =>
      have h0 : a.validate = Except.ok () := hprev 0 a (Nat.succ_pos _) rfl
      simp only [List.get?] at hget
      have hprev0 : ∀ (j : ℕ) (r0 : ReadingEntry), j < i0 → rest.get? j = some r0 →
          r0.validate = Except.ok () := by
        intro j r0 hj hg
        exact hprev (j + 1) r0 (by omega) (by simpa using hg)
      have hrec := ih (s + 1) i0 r e hget herr hprev0
      have harith : s + 1 + i0 = s + (i0 + 1) := by omega
      rw [harith] at hrec
      simp only [validateReadingsFrom, h0]
      exact hrec

/-- C6 (amended): `ReadingEntry.validate` raises a `ValidationError` tagged
with the offending field name iff the title strips to empty, the citation
strips to empty, or no text paragraph is non-blank (with the first failing
field, in the order title, citation, text, supplying the tag); and provided
the day-level fields `date_display` and `liturgical_day` are themselves
non-blank, `DailyReading.validate` on a readings list whose lowest-index
invalid entry is at index `i` with failing field `f` raises a
`ValidationError` whose field is the path `readings[i].f`.  (As originally
stated — for *every* `DailyReading` with an invalid entry — the claim is
false: a blank day-level field is reported first; see the counterexample.) -/
theorem validate_field_tagging :
    (∀ r : ReadingEntry,
      ((∃ e, r.validate = Except.error e) ↔
        (pyStrip r.title = "" ∨ pyStrip r.citation = "" ∨ ∀ p ∈ r.text, pyStrip p = "")) ∧
      (pyStrip r.title = "" →
        r.validate = Except.error ⟨"Reading title cannot be empty", "title"⟩) ∧
      (pyStrip r.title ≠ "" → pyStrip r.citation = "" →
        r.validate = Except.error ⟨"Reading citation cannot be empty", "citation"⟩) ∧
      (pyStrip r.title ≠ "" → pyStrip r.citation ≠ "" → (∀ p ∈ r.text, pyStrip p = "") →
        r.validate = Except.error ⟨"Reading text cannot be empty", "text"⟩)) ∧
    (∀ (d : DailyReading) (i : ℕ) (r : ReadingEntry) (e : ValidationError),
      pyStrip d.date_display ≠ "" → pyStrip d.liturgical_day ≠ "" →
      d.readings.get? i = some r → r.validate = Except.error e →
      (∀ (j : ℕ) (r0 : ReadingEntry), j < i → d.readings.get? j = some r0 →
        r0.validate = Except.ok ()) →
      d.validate = Except.error
        ⟨"Invalid reading at index " ++ toString i ++ ": " ++ e.message,
         "readings[" ++ toString i ++ "]." ++ e.field⟩) := by
  constructor
  · intro r
    rw [ReadingEntry.validate_eq]
    by_cases h1 : pyStrip r.title = ""
    · simp [h1]
    · by_cases h2 : pyStrip r.citation = ""
      · simp [h1, h2]
      · by_cases h3 : ∀ p ∈ r.text, pyStrip p = ""
        · rw [if_neg h1, if_neg h2, if_pos h3]
          simp [h1, h2, h3]
          exact h3
        · rw [if_neg h1, if_neg h2, if_neg h3]
          simp [h1, h2, h3]
  · intro d i r e hdd hld hget herr hprev
    unfold DailyReading.validate
    have h1 : ¬ (d.date_display = "" ∨ pyStrip d.date_display = "") := by
      rintro (h | h)
      · exact hdd (by rw [h]; rfl)
      · exact hdd h
    have h2 : ¬ (d.liturgical_day = "" ∨ pyStrip d.liturgical_day = "") := by
      rintro (h | h)
      · exact hld (by rw [h]; rfl)
      · exact hld h
    have h3 : d.readings ≠ [] := by
      intro h
      rw [h] at hget
      simp at hget
    have h4 : ¬ (d.readings.length < 1) := by
      have := List.length_pos.mpr h3
      omega
    have hrec := validateReadingsFrom_err d.readings 0 i r e hget herr hprev
    rw [Nat.zero_add] at hrec
    simp only [h1, h2, h3, h4, if_false, hrec]

/-- C6 counterexample to the original universal statement: this
`DailyReading` has an invalid reading at index 0 (blank title), yet its
`validate` reports the blank `date_display` first, with field tag
`"date_display"` instead of the path `"readings[0].title"`. -/
theorem validate_field_tagging_counterexample :
    (⟨"", "Luke 1:1", ["Some long enough paragraph."]⟩ : ReadingEntry).validate =
      Except.error ⟨"Reading title cannot be empty", "title"⟩ ∧
    (⟨⟨2025, 1, 1⟩, "", "Some Feast Day",
        [⟨"", "Luke 1:1", ["Some long enough paragraph."]⟩],
        "https://example.org"⟩ : DailyReading).validate =
      Except.error ⟨"Date display cannot be empty", "date_display"⟩ ∧
    ("date_display" : String) ≠ "readings[0].title" := by
  refine ⟨by decide, by decide, by decide⟩

theorem validate_field_tagging_witness :
    (⟨"Gospel", " ", ["A sufficiently long paragraph."]⟩ : ReadingEntry).validate =
      Except.error ⟨"Reading citation cannot be empty", "citation"⟩ ∧
    (⟨⟨2025, 11, 22⟩, "Saturday, November 22, 2025", "Memorial of Saint Cecilia",
        [⟨"Gospel", " ", ["A sufficiently long paragraph."]⟩],
        "https://example.org"⟩ : DailyReading).validate =
      Except.error
        ⟨"Invalid reading at index " ++ toString 0 ++ ": " ++
          "Reading citation cannot be empty",
         "readings[" ++ toString 0 ++ "]." ++ "citation"⟩ := by
  constructor
  · exact (validate_field_tagging.1 _).2.2.1 (by decide) (by decide)
  · exact validate_field_tagging.2 _ 0 ⟨"Gospel", " ", ["A sufficiently long paragraph."]⟩
      ⟨"Reading citation cannot be empty", "citation"⟩ (by decide) (by decide) rfl
      ((validate_field_tagging.1 _).2.2.1 (by decide) (by decide))
      (fun j r0 hj _ => absurd hj (by omega))

/-! ## `scraper/usccb.py`: `_extract_liturgical_day`

The parsed page is modelled by the results of the BeautifulSoup queries the
extractor performs: the `<title>` tag's string, and the page's H1/H2/H3
headings, each carrying its `class` attribute string and its
`get_text(strip=True)` text. -/

/-- Python `needle in hay` for strings: contiguous substring test, over
character lists. -/
def listHasInfix (needle : List Char) : List Char → Bool
  | [] => needle.isEmpty
  | c :: rest => needle.isPrefixOf (c :: rest) || listHasInfix needle rest

/-- Python `needle in hay` on strings. -/
def strContains (hay needle : String) : Bool :=
  listHasInfix needle.data hay.data

/-- Does `cs` begin with a match of `\s*-\s*Daily Readings` (the head of the
pattern `\s*-\s*Daily Readings.*$` of usccb.py line 151)?  Once this head
matches, `.*$` consumes the rest of the (single-line, stripped) title. -/
def matchDashDR (cs : List Char) : Bool :=
  match cs.dropWhile Char.isWhitespace with
  | '-' :: rest => ("Daily Readings".data).isPrefixOf (rest.dropWhile Char.isWhitespace)
  | _ => false

/-- `re.sub(r'\s*-\s*Daily Readings.*$', '', text)` (usccb.py line 151):
truncate at the leftmost position where `\s*-\s*Daily Readings` matches. -/
def applySub1 : List Char → List Char
  | [] => []
  | c :: cs => if matchDashDR (c :: cs) then [] else c :: applySub1 cs

/-- Does `cs` match `\s*<sep>\s*USCCB\s*$` in full (to the end)?  Head of the
end-anchored patterns of usccb.py lines 152-153 with `sep` one of `|`, `-`. -/
def matchSuffixUSCCB (sep : Char) (cs : List Char) : Bool :=
  match cs.dropWhile Char.isWhitespace with
  | c :: rest =>
    if c = sep then
      let r2 := rest.dropWhile Char.isWhitespace
      ("USCCB".data).isPrefixOf r2 && (r2.drop 5).all Char.isWhitespace
    else false
  | [] => false

/-- `re.sub(r'\s*\|\s*USCCB\s*$', '', text)` and
`re.sub(r'\s*-\s*USCCB\s*$', '', text)` (usccb.py lines 152-153): delete the
suffix from the leftmost position where the end-anchored pattern matches. -/
def applySubSuffix (sep : Char) : List Char → List Char
  | [] => []
  | c :: cs => if matchSuffixUSCCB sep (c :: cs) then [] else c :: applySubSuffix sep cs

/-- `re.sub(r'^Daily Readings\s*-\s*', '', text)` (usccb.py line 154):
remove the start-anchored prefix when present. -/
def applySub4 (cs : List Char) : List Char :=
  if ("Daily Readings".data).isPrefixOf cs then
    match (cs.drop ("Daily Readings".data).length).dropWhile Char.isWhitespace with
    | '-' :: r2 => r2.dropWhile Char.isWhitespace
    | _ => cs
  else cs

/-- The four boilerplate-stripping substitutions of
`_extract_liturgical_day`, strategy 1 (usccb.py lines 151-154), in source
order. -/
def stripTitleBoilerplate (s : String) : String :=
  ⟨applySub4 (applySubSuffix '-' (applySubSuffix '|' (applySub1 s.data)))⟩

/-- One heading element: its `class` attribute string and its
`get_text(strip=True)` text. -/
structure Heading where
  cls : String
  text : String
  deriving DecidableEq

/-- The projections of the parsed page that `_extract_liturgical_day`
queries: the `<title>` tag's `.string` (absent when the tag is absent or has
no string), and the H1/H2/H3 headings in document order. -/
structure Document where
  titleTag : Option String
  h1s : List Heading
  h2s : List Heading
  h3s : List Heading
  deriving DecidableEq

/-- `re.compile(r"(liturgical|day|title|heading)", re.I)` used as a
BeautifulSoup `class_` filter (usccb.py line 162): case-insensitive
substring search in the class attribute. -/
def hintMatch (cls : String) : Bool :=
  ["liturgical", "day", "title", "heading"].any (fun w => strContains (strLower cls) w)

/-- Strategy 1 of `_extract_liturgical_day` (usccb.py lines 143-158): strip
the title string, remove boilerplate, accept when non-empty and longer than
10 characters (returning it re-stripped). -/
def strategy1 (d : Document) : Option String :=
  match d.titleTag with
  | none => none
  | some raw =>
    let t := stripTitleBoilerplate (pyStrip raw)
    if t ≠ "" ∧ 10 < t.length then some (pyStrip t) else none

/-- One tag type of strategy 2 (usccb.py lines 161-167): `soup.find(tag,
class_=hint)` returns only the FIRST heading of that tag whose class
matches; that one heading is accepted when its text is non-empty, longer
than 5 characters and not the literal `"Daily Readings"`. -/
def strategy2One (hs : List Heading) : Option String :=
  match hs.find? (fun h => hintMatch h.cls) with
  | none => none
  | some h =>
    if h.text ≠ "" ∧ 5 < h.text.length ∧ h.text ≠ "Daily Readings" then some h.text
    else none

/-- Strategy 2 of `_extract_liturgical_day`: the tag types are tried in the
source order `["h2", "h3", "h1"]`. -/
def strategy2 (d : Document) : Option String :=
  match strategy2One d.h2s with
  | some t => some t
  | none =>
    match strategy2One d.h3s with
    | some t => some t
    | none => strategy2One d.h1s

/-- The liturgical-day keyword list of strategy 3 (usccb.py line 175). -/
def ldKeywords : List String :=
  ["sunday", "week", "memorial", "feast", "solemnity", "ordinary time",
   "advent", "lent", "easter"]

/-- One tag type of strategy 3 (usccb.py lines 170-178): scan all headings
of the tag; accept the first whose text contains a liturgical keyword
case-insensitively and is longer than 10 characters. -/
def strategy3One (hs : List Heading) : Option String :=
  hs.findSome? (fun h =>
    if (ldKeywords.any (fun k => strContains (strLower h.text) k)) ∧ 10 < h.text.length
    then some h.text else none)

/-- Strategy 3 of `_extract_liturgical_day`: tag order `["h2", "h3"]`. -/
def strategy3 (d : Document) : Option String :=
  match strategy3One d.h2s with
  | some t => some t
  | none => strategy3One d.h3s

/-- `USCCBReadingsScraper._extract_liturgical_day` (usccb.py lines 125-181):
strategies 1, 2, 3 in order, first success wins, else
`ParseError(..., element="liturgical_day")`. -/
def extract_liturgical_day (d : Document) : Except ParseError String :=
  match strategy1 d with
  | some t => Except.ok t
  | none =>
    match strategy2 d with
    | some t => Except.ok t
    | none =>
      match strategy3 d with
      | some t => Except.ok t
      | none =>
        Except.error ⟨"Could not extract liturgical day from page", "liturgical_day"⟩

/-! ## `scraper/usccb.py`: `_extract_readings` and the orchestrator

Each reading candidate (an `h3` with class `"name"`) is modelled by the
results of the queries the extractor performs on it. -/

/-- The `div.address` inside a candidate's content-header:
`address_div.find("a", href=re.compile(r"/bible/", re.I))` either finds a
citation anchor — in which case `citationLink` holds that anchor's
`get_text(strip=True)`, possibly blank — or finds none. -/
structure AddressDiv where
  citationLink : Option String
  deriving DecidableEq

/-- A candidate's `div.content-header`: its first descendant `div.address`
(if any) and the next sibling `div.content-body` (if any), the latter
represented by the `get_text(separator=" ", strip=True)` texts of all its
`<p>` descendants in document order. -/
structure ContentHeader where
  address : Option AddressDiv
  contentBody : Option (List String)
  deriving DecidableEq

/-- One reading candidate: an `h3` of class `"name"` with its stripped text
and its `find_parent("div", class_="content-header")` result. -/
structure Candidate where
  title : String
  contentHeader : Option ContentHeader
  deriving DecidableEq

/-- The reading-title keyword filter of usccb.py line 215. -/
def readingKeywords : List String := ["reading", "gospel", "psalm", "alleluia"]

/-- `any(keyword in title.lower() for keyword in [...])` (usccb.py line 215). -/
def isReadingTitle (title : String) : Bool :=
  readingKeywords.any (fun k => strContains (strLower title) k)

/-- The navigation/UI phrases filtered out of body paragraphs
(usccb.py line 248). -/
def skipPhrases : List String :=
  ["listen podcast", "view reflection", "en español", "view calendar",
   "get daily readings"]

/-- The paragraph filter of usccb.py line 248: keep a paragraph iff its text
is non-empty, longer than 20 characters, and contains none of the
navigation phrases case-insensitively. -/
def keepParagraph (text : String) : Bool :=
  decide (text ≠ "") && decide (20 < text.length) &&
    !(skipPhrases.any (fun s => strContains (strLower text) s))

/-- The per-candidate body of the `for heading in reading_headings` loop of
`_extract_readings` (usccb.py lines 211-259): `none` when the candidate is
skipped (title without reading keyword, missing content-header, missing
address div, missing citation anchor, missing content-body, or no surviving
paragraph), otherwise the constructed `ReadingEntry`. -/
def extractEntry (c : Candidate) : Option ReadingEntry :=
  if !(isReadingTitle c.title) then none
  else
    match c.contentHeader with
    | none => none
    | some ch =>
      match ch.address with
      | none => none
      | some ad =>
        match ad.citationLink with
        | none => none
        | some citation =>
          match ch.contentBody with
          | none => none
          | some paras =>
            let ps := paras.filter keepParagraph
            if ps = [] then none
            else some ⟨c.title, citation, ps⟩

/-- `USCCBReadingsScraper._extract_readings` (usccb.py lines 183-265): the
surviving entries in document order; `ParseError(..., element="readings")`
when none survive. -/
def extract_readings (cands : List Candidate) : Except ParseError (List ReadingEntry) :=
  let readings := cands.filterMap extractEntry
  if readings = [] then
    Except.error ⟨"Could not extract any readings from page", "readings"⟩
  else Except.ok readings

/-- The error taxonomy that `get_readings_for_date` can propagate after the
network fetch succeeded. -/
inductive ScrapeError where
  | parse : ParseError → ScrapeError
  | validation : ValidationError → ScrapeError
  deriving DecidableEq

/-- `USCCBReadingsScraper.get_readings_for_date` (usccb.py lines 292-357)
after a successful fetch: the fetched page is given via its two projections
(`Document` for the liturgical-day extractor, `List Candidate` for the
readings extractor).  The `date_display` string (`strftime("%A, %B %d, %Y")`,
whose weekday/month names no claim depends on) is passed in; `source_url` is
the URL built for the date; the advisory multiple-Mass warning (lines
326-329) only logs and is omitted. -/
def get_readings_core (base : String) (doc : Document) (cands : List Candidate)
    (dt : PyDate) (date_display : String) : Except ScrapeError DailyReading :=
  match extract_liturgical_day doc with
  | Except.error e => Except.error (ScrapeError.parse e)
  | Except.ok ld =>
    match extract_readings cands with
    | Except.error e => Except.error (ScrapeError.parse e)
    | Except.ok rs =>
      let daily : DailyReading := ⟨dt, date_display, ld, rs, build_url base dt⟩
      match daily.validate with
      | Except.error e => Except.error (ScrapeError.validation e)
      | Except.ok _ => Except.ok daily

/-! ## Claims about the extractors -/

/-- C2: when the readings extractor has zero surviving entries it raises a
`ParseError` whose `element` is `"readings"`, and when none of the
liturgical-day strategies succeeds the extractor raises a `ParseError`
whose `element` is `"liturgical_day"`; in neither case is a partial or
empty result returned (the `Except` is an error, not an `ok`). -/
theorem extract_error_policy :
    (∀ cands : List Candidate, cands.filterMap extractEntry = [] →
      extract_readings cands =
        Except.error ⟨"Could not extract any readings from page", "readings"⟩) ∧
    (∀ d : Document, strategy1 d = none → strategy2 d = none → strategy3 d = none →
      extract_liturgical_day d =
        Except.error ⟨"Could not extract liturgical day from page", "liturgical_day"⟩) := by
  constructor
  · intro cands h
    unfold extract_readings
    simp [h]
  · intro d h1 h2 h3
    unfold extract_liturgical_day
    rw [h1, h2, h3]

theorem extract_error_policy_witness :
    extract_readings [] =
      Except.error ⟨"Could not extract any readings from page", "readings"⟩ ∧
    extract_liturgical_day ⟨none, [], [], []⟩ =
      Except.error ⟨"Could not extract liturgical day from page", "liturgical_day"⟩ :=
  ⟨extract_error_policy.1 [] rfl, extract_error_policy.2 ⟨none, [], [], []⟩ rfl rfl rfl⟩

/-- C4: when strategy 1 (title tag) succeeds, its result is what the
liturgical-day extractor returns, even when strategy 3 (keyword heading)
would also succeed: the strategies run in the fixed order 1, 2, 3 and the
first success short-circuits. -/
theorem strategy_precedence (d : Document) (t u : String)
    (h1 : strategy1 d = some t) (h3 : strategy3 d = some u) :
    extract_liturgical_day d = Except.ok t := by
  unfold extract_liturgical_day
  rw [h1]

theorem strategy_precedence_witness :
    strategy1 ⟨some "Memorial of Saint Cecilia, Virgin and Martyr - Daily Readings - USCCB",
        [], [⟨"", "Memorial of Saint Cecilia"⟩], []⟩ =
      some "Memorial of Saint Cecilia, Virgin and Martyr" ∧
    strategy3 ⟨some "Memorial of Saint Cecilia, Virgin and Martyr - Daily Readings - USCCB",
        [], [⟨"", "Memorial of Saint Cecilia"⟩], []⟩ =
      some "Memorial of Saint Cecilia" ∧
    extract_liturgical_day
        ⟨some "Memorial of Saint Cecilia, Virgin and Martyr - Daily Readings - USCCB",
         [], [⟨"", "Memorial of Saint Cecilia"⟩], []⟩ =
      Except.ok "Memorial of Saint Cecilia, Virgin and Martyr" :=
  ⟨by decide, by decide, strategy_precedence _ _ "Memorial of Saint Cecilia"
    (by decide) (by decide)⟩

/-- C5 (amended): on a document where strategy 1 fails, strategy 2 tests
only the FIRST class-matching heading of each tag type (h2, then h3, then
h1); in particular when the first h2 whose class matches a hint substring
passes the text conditions (non-empty, longer than 5 characters, not
`"Daily Readings"`), the extractor returns that heading's text.  Mere
existence of a qualifying heading somewhere in the document does NOT make
the strategy succeed (see the counterexample). -/
theorem strategy2_first_match_only (d : Document) (h : Heading)
    (h0 : strategy1 d = none)
    (hfind : d.h2s.find? (fun x => hintMatch x.cls) = some h)
    (htext : h.text ≠ "" ∧ 5 < h.text.length ∧ h.text ≠ "Daily Readings") :
    extract_liturgical_day d = Except.ok h.text := by
  have hs21 : strategy2One d.h2s = some h.text := by
    unfold strategy2One
    rw [hfind]
    exact if_pos htext
  have h2 : strategy2 d = some h.text := by
    unfold strategy2
    rw [hs21]
  unfold extract_liturgical_day
  rw [h0, h2]

/-- C5, counterexample to the original statement: strategy 1 fails, the
second h2 has a hint-matching class (`"title"`) and qualifying text
(`"Candlemas Carols"`, non-empty, longer than 5 characters, not
`"Daily Readings"`), yet the extractor does not return it — strategy 2 only
examines the first class-matching h2 (text `"Hi"`, too short), and the whole
extraction raises. -/
theorem strategy2_first_match_only_counterexample :
    strategy1 ⟨none, [], [⟨"title", "Hi"⟩, ⟨"title", "Candlemas Carols"⟩], []⟩ = none ∧
    (⟨none, [], [⟨"title", "Hi"⟩, ⟨"title", "Candlemas Carols"⟩], []⟩ : Document).h2s.get? 1 =
      some ⟨"title", "Candlemas Carols"⟩ ∧
    hintMatch "title" = true ∧
    (("Candlemas Carols" : String) ≠ "" ∧ 5 < ("Candlemas Carols" : String).length ∧
      ("Candlemas Carols" : String) ≠ "Daily Readings") ∧
    extract_liturgical_day ⟨none, [], [⟨"title", "Hi"⟩, ⟨"title", "Candlemas Carols"⟩], []⟩ =
      Except.error ⟨"Could not extract liturgical day from page", "liturgical_day"⟩ ∧
    extract_liturgical_day ⟨none, [], [⟨"title", "Hi"⟩, ⟨"title", "Candlemas Carols"⟩], []⟩ ≠
      Except.ok "Candlemas Carols" := by
  refine ⟨by decide, by decide, by decide, by decide, by decide, by decide⟩

theorem strategy2_first_match_only_witness :
    extract_liturgical_day ⟨none, [], [⟨"page-title", "Memorial of Saint Cecilia"⟩], []⟩ =
      Except.ok "Memorial of Saint Cecilia" :=
  strategy2_first_match_only _ ⟨"page-title", "Memorial of Saint Cecilia"⟩
    (by decide) (by decide) (by decide)

/-- A reading candidate that `extractEntry` fully extracts: keyword-matching
title, content-header, address div with citation anchor, content-body with
at least one surviving paragraph. -/
def goodCandidate (c : Candidate) : Prop :=
  isReadingTitle c.title = true ∧
  ∃ ch ad cit paras, c.contentHeader = some ch ∧ ch.address = some ad ∧
    ad.citationLink = some cit ∧ ch.contentBody = some paras ∧
    paras.filter keepParagraph ≠ []

theorem extractEntry_of_good (c : Candidate) (h : goodCandidate c) :
    ∃ e, extractEntry c = some e := by
  obtain ⟨ht, ch, ad, cit, paras, h1, h2, h3, h4, h5⟩ := h
  refine ⟨⟨c.title, cit, paras.filter keepParagraph⟩, ?_⟩
  unfold extractEntry
  simp [ht, h1, h2, h3, h4, h5]

theorem filterMap_extractEntry_length (l : List Candidate)
    (h : ∀ c ∈ l, goodCandidate c) :
    (l.filterMap extractEntry).length = l.length := by
  induction l with
  | nil => rfl
  | cons c rest ih =>
    obtain ⟨e, he⟩ := extractEntry_of_good c (h c (List.mem_cons_self c rest))
    have hrest := ih (fun x hx => h x (List.mem_cons_of_mem c hx))
    simp [List.filterMap_cons, he, hrest]

/-- C3: on a document whose candidate list consists of 4 keyword-matching
reading candidates of which exactly one lacks its citation anchor (its
content-header and address div present) while the other 3 extract fully,
the readings extractor returns exactly 3 `ReadingEntry` objects and does
not raise; and in general a candidate missing its citation anchor, its
content-header container, or all surviving body paragraphs contributes no
entry yet does not abort the extraction. -/
theorem partial_failure_tolerance (pre post : List Candidate) (cbad : Candidate)
    (ch : ContentHeader) (ad : AddressDiv)
    (hpre : ∀ c ∈ pre, goodCandidate c) (hpost : ∀ c ∈ post, goodCandidate c)
    (hlen : pre.length + post.length = 3)
    (hch : cbad.contentHeader = some ch) (had : ch.address = some ad)
    (hanchor : ad.citationLink = none) :
    extractEntry cbad = none ∧
    (∃ l, extract_readings (pre ++ cbad :: post) = Except.ok l ∧ l.length = 3) ∧
    (∀ c : Candidate, c.contentHeader = none → extractEntry c = none) ∧
    (∀ (c : Candidate) (ch0 : ContentHeader) (paras : List String),
      c.contentHeader = some ch0 → ch0.contentBody = some paras →
      paras.filter keepParagraph = [] → extractEntry c = none) := by
  have hbad : extractEntry cbad = none := by
    unfold extractEntry
    by_cases ht : isReadingTitle cbad.title
    · simp [ht, hch, had, hanchor]
    · simp [ht]
  refine ⟨hbad, ?_, ?_, ?_⟩
  · have hmap : (pre ++ cbad :: post).filterMap extractEntry =
        pre.filterMap extractEntry ++ post.filterMap extractEntry := by
      rw [List.filterMap_append, List.filterMap_cons, hbad]
    have hlen3 : ((pre ++ cbad :: post).filterMap extractEntry).length = 3 := by
      rw [hmap, List.length_append, filterMap_extractEntry_length pre hpre,
        filterMap_extractEntry_length post hpost]
      omega
    refine ⟨(pre ++ cbad :: post).filterMap extractEntry, ?_, hlen3⟩
    unfold extract_readings
    rw [if_neg]
    intro hnil
    rw [hnil] at hlen3
    simp at hlen3
  · intro c hc
    unfold extractEntry
    by_cases ht : isReadingTitle c.title
    · simp [ht, hc]
    · simp [ht]
  · intro c ch0 paras hc hb hfil
    unfold extractEntry
    by_cases ht : isReadingTitle c.title
    · rcases hadr0 : ch0.address with _ | ad0
      · simp [ht, hc, hadr0]
      · rcases hcit : ad0.citationLink with _ | cit
        · simp [ht, hc, hadr0, hcit]
        · simp [ht, hc, hadr0, hcit, hb, hfil]
    · simp [ht]

theorem partial_failure_tolerance_witness :
    ∃ l, extract_readings
      [⟨"Reading 1", some ⟨some ⟨some "1 Cor 15:54-58"⟩,
          some ["This is a sufficiently long first paragraph."]⟩⟩,
       ⟨"Responsorial Psalm", some ⟨some ⟨some "Ps 98"⟩,
          some ["Sing to the Lord a new song of great praise."]⟩⟩,
       ⟨"Alleluia", some ⟨some ⟨none⟩,
          some ["Stand firm and your endurance will win your souls."]⟩⟩,
       ⟨"Gospel", some ⟨some ⟨some "Luke 21:5-11"⟩,
          some ["While some people were speaking about the temple."]⟩⟩] =
      Except.ok l ∧ l.length = 3 := by
  have h := partial_failure_tolerance
    [⟨"Reading 1", some ⟨some ⟨some "1 Cor 15:54-58"⟩,
        some ["This is a sufficiently long first paragraph."]⟩⟩,
     ⟨"Responsorial Psalm", some ⟨some ⟨some "Ps 98"⟩,
        some ["Sing to the Lord a new song of great praise."]⟩⟩]
    [⟨"Gospel", some ⟨some ⟨some "Luke 21:5-11"⟩,
        some ["While some people were speaking about the temple."]⟩⟩]
    ⟨"Alleluia", some ⟨some ⟨none⟩,
        some ["Stand firm and your endurance will win your souls."]⟩⟩
    ⟨some ⟨none⟩, some ["Stand firm and your endurance will win your souls."]⟩
    ⟨none⟩
    (by
      intro c hc
      simp only [List.mem_cons, List.not_mem_nil, or_false] at hc
      rcases hc with rfl | rfl
      · exact ⟨by decide, _, _, _, _, rfl, rfl, rfl, rfl, by decide⟩
      · exact ⟨by decide, _, _, _, _, rfl, rfl, rfl, rfl, by decide⟩)
    (by
      intro c hc
      simp only [List.mem_cons, List.not_mem_nil, or_false] at hc
      rcases hc with rfl
      exact ⟨by decide, _, _, _, _, rfl, rfl, rfl, rfl, by decide⟩)
    rfl rfl rfl rfl
  exact h.2.1

theorem keepParagraph_iff (p : String) :
    keepParagraph p = true ↔
      (21 ≤ p.length ∧ ∀ s ∈ skipPhrases, strContains (strLower p) s = false) := by
  unfold keepParagraph
  simp only [Bool.and_eq_true, decide_eq_true_eq, Bool.not_eq_true',
    List.any_eq_false]
  constructor
  · rintro ⟨⟨_, hlen⟩, hs⟩
    exact ⟨by omega, fun s hsm => by simpa using hs s hsm⟩
  · rintro ⟨hlen, hs⟩
    refine ⟨⟨?_, by omega⟩, fun s hsm => by simpa using hs s hsm⟩
    intro hp
    rw [hp] at hlen
    exact absurd hlen (by decide)

/-- C8: a body paragraph appears in the produced `ReadingEntry.text` iff it
is one of the candidate's content-body paragraphs, is at least 21
characters long, and contains none of the fixed navigation phrases
case-insensitively; in particular the paragraph `"View reflection"` never
appears, and surviving paragraphs keep document order (the kept text is a
sublist of the body paragraphs). -/
theorem paragraph_filtering (c : Candidate) (ch : ContentHeader)
    (paras : List String) (entry : ReadingEntry)
    (hch : c.contentHeader = some ch) (hbody : ch.contentBody = some paras)
    (he : extractEntry c = some entry) :
    entry.text = paras.filter keepParagraph ∧
    (∀ p, p ∈ entry.text ↔
      (p ∈ paras ∧ 21 ≤ p.length ∧
        ∀ s ∈ skipPhrases, strContains (strLower p) s = false)) ∧
    "View reflection" ∉ entry.text ∧
    entry.text.Sublist paras := by
  have htext : entry.text = paras.filter keepParagraph := by
    unfold extractEntry at he
    by_cases ht : isReadingTitle c.title
    · rw [hch] at he
      simp only [ht, Bool.not_true, Bool.false_eq_true, if_false] at he
      rcases hadr : ch.address with _ | ad0
      · simp only [hadr] at he
        cases he
      · simp only [hadr] at he
        rcases hcit : ad0.citationLink with _ | cit
        · simp only [hcit] at he
          cases he
        · simp only [hcit, hbody] at he
          by_cases hfil : paras.filter keepParagraph = []
          · simp only [hfil, if_pos rfl] at he; cases he
          · simp only [if_neg hfil] at he
            injection he with he
            rw [← he]
    · simp [ht] at he
  have hiff : ∀ p, p ∈ entry.text ↔
      (p ∈ paras ∧ 21 ≤ p.length ∧
        ∀ s ∈ skipPhrases, strContains (strLower p) s = false) := by
    intro p
    rw [htext, List.mem_filter, keepParagraph_iff]
  refine ⟨htext, hiff, ?_, ?_⟩
  · intro hmem
    have h21 := ((hiff _).mp hmem).2.1
    exact absurd h21 (by decide)
  · rw [htext]
    exact List.filter_sublist paras

theorem paragraph_filtering_witness :
    extractEntry ⟨"Gospel", some ⟨some ⟨some "Luke 1:1-4"⟩,
        some ["View reflection", "And he said unto them all these words."]⟩⟩ =
      some ⟨"Gospel", "Luke 1:1-4", ["And he said unto them all these words."]⟩ ∧
    "View reflection" ∉
      (⟨"Gospel", "Luke 1:1-4", ["And he said unto them all these words."]⟩ :
        ReadingEntry).text :=
  ⟨by decide,
   (paragraph_filtering ⟨"Gospel", some ⟨some ⟨some "Luke 1:1-4"⟩,
        some ["View reflection", "And he said unto them all these words."]⟩⟩
      ⟨some ⟨some "Luke 1:1-4"⟩,
        some ["View reflection", "And he said unto them all these words."]⟩
      ["View reflection", "And he said unto them all these words."]
      ⟨"Gospel", "Luke 1:1-4", ["And he said unto them all these words."]⟩
      rfl rfl (by decide)).2.2.1⟩

/-- C9: the readings extractor guarantees no non-blank citation: on this
document the `"Alleluia"` candidate's citation anchor exists but has blank
text, the extractor produces a `ReadingEntry` with citation `""` instead of
skipping the candidate (no title-based exception for Alleluia exists), and
the orchestrator's subsequent `DailyReading.validate` raises a
`ValidationError` with field path `"readings[0].citation"`, aborting the
whole `get_readings_for_date` call. -/
theorem blank_citation_aborts_call :
    extract_readings
      [⟨"Alleluia", some ⟨some ⟨some ""⟩,
          some ["Alleluia, alleluia; speak Lord your servant hears."]⟩⟩] =
      Except.ok [⟨"Alleluia", "",
        ["Alleluia, alleluia; speak Lord your servant hears."]⟩] ∧
    get_readings_core "https://bible.usccb.org/bible/readings"
      ⟨some "Memorial of Saint Cecilia, Virgin and Martyr - Daily Readings - USCCB",
        [], [], []⟩
      [⟨"Alleluia", some ⟨some ⟨some ""⟩,
          some ["Alleluia, alleluia; speak Lord your servant hears."]⟩⟩]
      ⟨2025, 11, 22⟩ "Saturday, November 22, 2025" =
      Except.error (ScrapeError.validation
        ⟨"Invalid reading at index 0: Reading citation cannot be empty",
         "readings[0].citation"⟩) :=
  ⟨by decide, by decide⟩
